import Mathlib

/-!
Verification development for the option-screener strategy engine.

The C++ sources are shallowly embedded:
* `double` values that can become ±∞ or NaN (strategy metrics, range bounds)
  are modelled by `FVal`, rationals extended with `pinf`, `ninf`, `nan`,
  together with IEEE-754 comparison (`fle`, `flt`) and division (`fdiv`)
  semantics restricted to the operations the code performs.  Exact input
  quantities (strikes, prices, greeks, volumes) are modelled as `ℚ`.
* `Option` (the C++ per-contract record, renamed `Opt` to avoid clashing
  with Lean's `Option`), `ConfigFilter`, `StrategyFilter`, `Direction` are
  translated field by field from `include/object.hpp`.
* The `Strategy` class hierarchy (`strategy_class.hpp`) becomes a closed
  inductive with the four concrete variants and their metric functions.
* `OptionFilter::apply_filter` (`option_filter.hpp`) becomes `applyFilter`.
  In C++ it holds the universe by reference and reassigns it, so the
  generators, which feed it the factory's shared universe through a
  `const_cast`, mutate that universe; each generator is therefore embedded
  as a state-passing function returning both its strategies and the
  post-call universe.
* `cfg.direction.value()` throws `std::bad_optional_access` when the field
  is absent; this is modelled with `Except String`.
-/

/-- IEEE-754 double restricted to the values this program produces:
NaN, plus and minus infinity, and exact finite values (as rationals). -/
inductive FVal where
  | nan : FVal
  | pinf : FVal
  | ninf : FVal
  | fin : ℚ → FVal
deriving DecidableEq, Repr

namespace FVal

/-- IEEE `<=`: any comparison with NaN is false. -/
def fle : FVal → FVal → Bool
  | .nan, _ => false
  | _, .nan => false
  | .ninf, _ => true
  | _, .pinf => true
  | .pinf, _ => false
  | .fin _, .ninf => false
  | .fin a, .fin b => decide (a ≤ b)

/-- IEEE `<`: any comparison with NaN is false. -/
def flt : FVal → FVal → Bool
  | .nan, _ => false
  | _, .nan => false
  | .pinf, _ => false
  | .ninf, .ninf => false
  | .ninf, _ => true
  | .fin _, .ninf => false
  | .fin _, .pinf => true
  | .fin a, .fin b => decide (a < b)

/-- IEEE `>=` is `<=` flipped. -/
def fge (a b : FVal) : Bool := fle b a

/-- IEEE `>` is `<` flipped. -/
def fgt (a b : FVal) : Bool := flt b a

/-- IEEE division for the shapes the code divides (ℚ has no signed zero,
so 0 is treated as +0; `rr` only ever divides by a strictly positive
denominator, where the two models agree). -/
def fdiv : FVal → FVal → FVal
  | .nan, _ => .nan
  | _, .nan => .nan
  | .pinf, .pinf => .nan
  | .pinf, .ninf => .nan
  | .ninf, .pinf => .nan
  | .ninf, .ninf => .nan
  | .pinf, .fin q => if q < 0 then .ninf else .pinf
  | .ninf, .fin q => if q < 0 then .pinf else .ninf
  | .fin _, .pinf => .fin 0
  | .fin _, .ninf => .fin 0
  | .fin a, .fin b =>
      if b = 0 then (if a = 0 then .nan else if a < 0 then .ninf else .pinf)
      else .fin (a / b)

/-- `std::isnan`. -/
def isNan : FVal → Bool
  | .nan => true
  | _ => false

end FVal

/-- The C++ `Option` record (`object.hpp`), renamed to avoid Lean's `Option`. -/
structure Opt where
  symbol : String
  expiry : String
  strike : ℚ
  side : String
  mid : ℚ
  iv : ℚ
  volume : ℚ
  oi : ℚ
  delta : ℚ
  gamma : ℚ
  theta : ℚ
  vega : ℚ
  rho : ℚ
  days_to_expiry : ℤ
  bid : Option ℚ
  ask : Option ℚ
deriving DecidableEq, Repr

namespace Opt

def is_call (o : Opt) : Bool := o.side == "CALL"

def is_put (o : Opt) : Bool := o.side == "PUT"

def is_otm (o : Opt) (spot : ℚ) : Bool :=
  (o.is_call && decide (spot < o.strike)) || (o.is_put && decide (o.strike < spot))

/-- `mid > 0.0 ? mid : 0.0` -/
def price (o : Opt) : ℚ := if 0 < o.mid then o.mid else 0

def liquidity (o : Opt) : ℚ := o.volume + o.oi

def bid_ask_spread (o : Opt) : Option ℚ :=
  match o.bid, o.ask with
  | some b, some a => some |a - b|
  | _, _ => none

def volume_ratio (o : Opt) : Option ℚ :=
  if 0 < o.oi then some (o.volume / o.oi) else none

end Opt

inductive Direction where
  | LONG : Direction
  | SHORT : Direction
deriving DecidableEq, Repr

def direction_to_string (dir : Direction) : String :=
  match dir with
  | .LONG => "LONG"
  | .SHORT => "SHORT"

/-- Which strategy kinds to generate (`object.hpp`). -/
structure StrategyFilter where
  single_calls : Bool := false
  iron_condors : Bool := false
  straddles : Bool := false
  strangles : Bool := false
deriving DecidableEq, Repr

/-- The screening configuration (`object.hpp`).  Strategy-level range
bounds are doubles that may be ±∞, hence `FVal`; the option-level fields
are kept at their exact types (none of the option-level predicates is
claimed to interact with infinite or NaN configuration values). -/
structure ConfigFilter where
  min_volume : Option ℤ := none
  min_oi : Option ℤ := none
  min_price : Option ℚ := none
  expiry : Option String := none
  days_to_expiry_range : Option (ℤ × ℤ) := none
  volume_ratio_range : Option (ℚ × ℚ) := none
  max_bid_ask_spread : Option ℚ := none
  direction : Option Direction := none
  debit_range : Option (FVal × FVal) := none
  credit_range : Option (FVal × FVal) := none
  potential_gain_range : Option (FVal × FVal) := none
  potential_loss_range : Option (FVal × FVal) := none
  rr_range : Option (FVal × FVal) := none
  net_delta_range : Option (FVal × FVal) := none
  net_theta_range : Option (FVal × FVal) := none
  net_vega_range : Option (FVal × FVal) := none
  iv_range : Option (FVal × FVal) := none
deriving DecidableEq, Repr

/-!  The `Strategy` hierarchy (`strategy_class.hpp`).  The C++ base class
with four concrete subclasses becomes a closed inductive; the virtual
methods become functions matching on the variant.  The `direction` field
is a string in the source ("LONG"/"SHORT"), kept as such.  -/

inductive Strategy where
  | singleLeg (opt : Opt) (action : String) (direction : String)
  | ironCondor (sc bc sp bp : Opt) (direction : String)
  | straddle (call put : Opt) (direction : String)
  | strangle (call put : Opt) (direction : String)
deriving DecidableEq, Repr

namespace Strategy

def direction : Strategy → String
  | .singleLeg _ _ d => d
  | .ironCondor _ _ _ _ d => d
  | .straddle _ _ d => d
  | .strangle _ _ d => d

def legs : Strategy → List Opt
  | .singleLeg o _ _ => [o]
  | .ironCondor sc bc sp bp _ => [sc, bc, sp, bp]
  | .straddle c p _ => [c, p]
  | .strangle c p _ => [c, p]

def leg_sign : Strategy → Opt → String
  | .singleLeg _ a _, _ => a
  | .ironCondor sc _ sp _ _, leg =>
      if (leg.expiry == sc.expiry && decide (leg.strike = sc.strike) && leg.is_call) ||
         (leg.expiry == sp.expiry && decide (leg.strike = sp.strike) && leg.is_put)
      then "SELL" else "BUY"
  | .straddle _ _ d, _ => if d == "LONG" then "BUY" else "SELL"
  | .strangle _ _ d, _ => if d == "LONG" then "BUY" else "SELL"

def debit : Strategy → ℚ
  | .singleLeg o a _ => if a == "BUY" then o.price * 100 else 0
  | .ironCondor _ bc _ bp _ => (bc.price + bp.price) * 100
  | .straddle c p d => if d == "LONG" then (c.price + p.price) * 100 else 0
  | .strangle c p d => if d == "LONG" then (c.price + p.price) * 100 else 0

def credit : Strategy → ℚ
  | .singleLeg o a _ => if a == "SELL" then o.price * 100 else 0
  | .ironCondor sc _ sp _ _ => (sc.price + sp.price) * 100
  | .straddle c p d => if d == "SHORT" then (c.price + p.price) * 100 else 0
  | .strangle c p d => if d == "SHORT" then (c.price + p.price) * 100 else 0

def cost (s : Strategy) : ℚ := s.debit - s.credit

/-- `IronCondor::width`. -/
def width : Strategy → ℚ
  | .ironCondor sc bc _ _ _ => (bc.strike - sc.strike) * 100
  | _ => 0

def max_gain : Strategy → FVal
  | .singleLeg o a d =>
      if o.is_call then .pinf else .fin (o.strike * 100 - (Strategy.singleLeg o a d).cost)
  | .ironCondor sc bc sp bp d => .fin (Strategy.ironCondor sc bc sp bp d).credit
  | .straddle c p d =>
      if d == "LONG" then .pinf else .fin (Strategy.straddle c p d).credit
  | .strangle c p d =>
      if d == "LONG" then .pinf else .fin (Strategy.strangle c p d).credit

def max_loss : Strategy → FVal
  | .singleLeg o a d => .fin (Strategy.singleLeg o a d).cost
  | .ironCondor sc bc sp bp d =>
      .fin ((Strategy.ironCondor sc bc sp bp d).width -
            (Strategy.ironCondor sc bc sp bp d).credit)
  | .straddle c p d =>
      if d == "LONG" then .fin (Strategy.straddle c p d).cost else .pinf
  | .strangle c p d =>
      if d == "LONG" then .fin (Strategy.strangle c p d).cost else .pinf

/-- `rr`: `loss > 0 ? max_gain / loss : +inf`. -/
def rr (s : Strategy) : FVal :=
  if FVal.fgt s.max_loss (.fin 0) then FVal.fdiv s.max_gain s.max_loss else .pinf

/-- `signed_legs`: each leg with +1 for BUY, −1 for SELL. -/
def signed_legs (s : Strategy) : List (Opt × ℤ) :=
  s.legs.map (fun leg => (leg, if s.leg_sign leg == "BUY" then (1 : ℤ) else -1))

def net_delta (s : Strategy) : ℚ :=
  (s.signed_legs.map (fun lq => lq.1.delta * 100 * (lq.2 : ℚ))).sum

def net_theta (s : Strategy) : ℚ :=
  (s.signed_legs.map (fun lq => lq.1.theta * 100 * (lq.2 : ℚ))).sum

def net_vega (s : Strategy) : ℚ :=
  (s.signed_legs.map (fun lq => lq.1.vega * 100 * (lq.2 : ℚ))).sum

/-- Mean of the strictly-positive leg IVs, `none` if there are none. -/
def avg_iv (s : Strategy) : Option ℚ :=
  let ivs := s.signed_legs.filterMap (fun lq => if 0 < lq.1.iv then some lq.1.iv else none)
  if ivs.isEmpty then none else some (ivs.sum / ivs.length)

end Strategy

/-!  `OptionFilter` (`option_filter.hpp`).  `apply_filter` runs up to seven
conditional `filter` passes over the universe, in source order.  The C++
object holds the universe by reference and `filter` reassigns it, so the
function below is both the value `result()` yields and the state the
caller's vector is left in.  -/

/-- One `filter(cond)` pass of `OptionFilter`, for each conditional branch
of `apply_filter`; each predicate is total, `true` when the config field is
absent (the branch is skipped). -/
def optMinVolumeP (cfg : ConfigFilter) (o : Opt) : Bool :=
  match cfg.min_volume with
  | none => true
  | some m => decide ((m : ℚ) ≤ o.volume)

def optMinOiP (cfg : ConfigFilter) (o : Opt) : Bool :=
  match cfg.min_oi with
  | none => true
  | some m => decide ((m : ℚ) ≤ o.oi)

def optMinPriceP (cfg : ConfigFilter) (o : Opt) : Bool :=
  match cfg.min_price with
  | none => true
  | some m => decide (m ≤ o.price)

def optExpiryP (cfg : ConfigFilter) (o : Opt) : Bool :=
  match cfg.expiry with
  | none => true
  | some e => o.expiry == e

def optDaysP (cfg : ConfigFilter) (o : Opt) : Bool :=
  match cfg.days_to_expiry_range with
  | none => true
  | some r => decide (r.1 ≤ o.days_to_expiry) && decide (o.days_to_expiry ≤ r.2)

def optVolumeRatioP (cfg : ConfigFilter) (o : Opt) : Bool :=
  match cfg.volume_ratio_range with
  | none => true
  | some r =>
      match o.volume_ratio with
      | none => false
      | some ratio => decide (r.1 ≤ ratio) && decide (ratio ≤ r.2)

def optSpreadP (cfg : ConfigFilter) (o : Opt) : Bool :=
  match cfg.max_bid_ask_spread with
  | none => true
  | some m =>
      match o.bid_ask_spread with
      | none => false
      | some spread => decide (spread ≤ m)

/-- `OptionFilter::apply_filter`: the seven passes in source order. -/
def applyFilter (cfg : ConfigFilter) (univ : List Opt) : List Opt :=
  ((((((univ.filter (optMinVolumeP cfg)).filter (optMinOiP cfg)).filter
      (optMinPriceP cfg)).filter (optExpiryP cfg)).filter
      (optDaysP cfg)).filter (optVolumeRatioP cfg)).filter (optSpreadP cfg)

/-!  `StrategyFactory` (`include/factory/factory.hpp`, the full version
with the NaN guard in `check_range`).  -/

/-- `StrategyFactory::check_range`: absent range passes everything;
NaN never passes; otherwise `min_val <= value <= max_val` with IEEE
comparisons. -/
def check_range (value : FVal) (range : Option (FVal × FVal)) : Bool :=
  match range with
  | none => true
  | some r =>
      if value.isNan then false
      else FVal.fge value r.1 && FVal.fle value r.2

/-- The body of the `filter_strategies` loop as a predicate: a strategy
survives iff no `continue` fires. -/
def strategyPasses (cfg : ConfigFilter) (s : Strategy) : Bool :=
  (if cfg.debit_range.isSome && decide (0 < s.debit)
     then check_range (.fin s.debit) cfg.debit_range else true) &&
  (if cfg.credit_range.isSome && decide (0 < s.credit)
     then check_range (.fin s.credit) cfg.credit_range else true) &&
  (check_range s.max_gain cfg.potential_gain_range &&
   check_range s.max_loss cfg.potential_loss_range &&
   check_range s.rr cfg.rr_range &&
   check_range (.fin s.net_delta) cfg.net_delta_range &&
   check_range (.fin s.net_theta) cfg.net_theta_range &&
   check_range (.fin s.net_vega) cfg.net_vega_range) &&
  (match s.avg_iv with
   | some v => check_range (.fin v) cfg.iv_range
   | none => true)

/-- `StrategyFactory::filter_strategies`. -/
def filter_strategies (cfg : ConfigFilter) (strategies : List Strategy) : List Strategy :=
  strategies.filter (strategyPasses cfg)

/-!  Strategy generators (`generator_class.hpp`).  Each generator first
runs `OptionFilter(const_cast<...>(options_), spot_).apply_filter(cfg)`,
which replaces the shared universe with the filtered one, then reads
`cfg.direction.value()` — a throw of `std::bad_optional_access` when the
field is absent, modelled as `Except.error`.  Every generator therefore
returns its `Except` outcome together with the universe the caller's
vector now holds.

`std::sort(..., strike <)` leaves the order of equal-strike records
unspecified; it is embedded as an insertion sort on the same key (no
theorem below depends on the resulting order, only on membership).
`std::map<std::string, ...>` iterates its keys in sorted order, with each
chain in insertion order.  -/

/-- Insertion of one element into a list sorted by `le`. -/
def insSorted (le : α → α → Bool) (a : α) : List α → List α
  | [] => [a]
  | b :: l => if le a b then a :: b :: l else b :: insSorted le a l

/-- Insertion sort by `le`. -/
def insSort (le : α → α → Bool) : List α → List α
  | [] => []
  | a :: l => insSorted le a (insSort le l)

/-- Sort an option chain ascending by strike (`std::sort` with `a.strike < b.strike`). -/
def sortByStrike (l : List Opt) : List Opt :=
  insSort (fun a b => decide (a.strike ≤ b.strike)) l

/-- The keys of the `std::map` grouping by expiry: distinct expiries in
sorted order. -/
def expiryKeys (opts : List Opt) : List String :=
  insSort (fun a b => decide (a ≤ b)) (opts.map Opt.expiry).dedup

/-- One chain of the expiry map: the records with that expiry, in input order. -/
def expiryChain (opts : List Opt) (e : String) : List Opt :=
  opts.filter (fun o => o.expiry == e)

/-- `SingleCallsGenerator::generate`. -/
def singleCallsGenerate (spot : ℚ) (univ : List Opt) (cfg : ConfigFilter) :
    Except String (List Strategy) × List Opt :=
  let opts := applyFilter cfg univ
  let filtered_opts := opts.filter (fun o => o.is_call && o.is_otm spot)
  match cfg.direction with
  | none => (.error "bad_optional_access", opts)
  | some dir =>
      let direction_str := direction_to_string dir
      let action := if direction_str == "SHORT" then "SELL" else "BUY"
      (.ok (filtered_opts.map (fun o => .singleLeg o action direction_str)), opts)

/-- `IronCondorsGenerator::generate`. -/
def ironCondorsGenerate (spot : ℚ) (univ : List Opt) (cfg : ConfigFilter) :
    Except String (List Strategy) × List Opt :=
  let opts := applyFilter cfg univ
  match cfg.direction with
  | none => (.error "bad_optional_access", opts)
  | some dir =>
      let direction_str := direction_to_string dir
      let strategies := (expiryKeys opts).flatMap (fun e =>
        let chain := expiryChain opts e
        let calls := sortByStrike (chain.filter Opt.is_call)
        let puts := sortByStrike (chain.filter Opt.is_put)
        let short_calls := calls.filter (fun c => decide (spot < c.strike))
        let short_puts := puts.filter (fun p => decide (p.strike < spot))
        short_calls.flatMap (fun short_call =>
          let buy_calls := calls.filter (fun c => decide (short_call.strike < c.strike))
          buy_calls.flatMap (fun buy_call =>
            short_puts.flatMap (fun short_put =>
              let buy_puts := puts.filter (fun p => decide (p.strike < short_put.strike))
              buy_puts.map (fun buy_put =>
                .ironCondor short_call buy_call short_put buy_put direction_str)))))
      (.ok strategies, opts)

/-- `StraddlesGenerator::generate` (the only generator not reading `spot_`). -/
def straddlesGenerate (_spot : ℚ) (univ : List Opt) (cfg : ConfigFilter) :
    Except String (List Strategy) × List Opt :=
  let opts := applyFilter cfg univ
  match cfg.direction with
  | none => (.error "bad_optional_access", opts)
  | some dir =>
      let direction_str := direction_to_string dir
      let strategies := (expiryKeys opts).flatMap (fun e =>
        let chain := expiryChain opts e
        let calls := sortByStrike (chain.filter Opt.is_call)
        let puts := sortByStrike (chain.filter Opt.is_put)
        calls.flatMap (fun call =>
          puts.filterMap (fun put =>
            if call.strike = put.strike
            then some (.straddle call put direction_str) else none)))
      (.ok strategies, opts)

/-- `StranglesGenerator::generate`. -/
def stranglesGenerate (spot : ℚ) (univ : List Opt) (cfg : ConfigFilter) :
    Except String (List Strategy) × List Opt :=
  let opts := applyFilter cfg univ
  match cfg.direction with
  | none => (.error "bad_optional_access", opts)
  | some dir =>
      let direction_str := direction_to_string dir
      let strategies := (expiryKeys opts).flatMap (fun e =>
        let chain := expiryChain opts e
        let calls := sortByStrike (chain.filter (fun o => o.is_call && decide (spot < o.strike)))
        let puts := sortByStrike (chain.filter (fun o => o.is_put && decide (o.strike < spot)))
        calls.flatMap (fun call =>
          puts.map (fun put => .strangle call put direction_str)))
      (.ok strategies, opts)

/-- One branch of `StrategyFactory::generate`: if the kind is enabled, run
its generator on the current universe (a C++ exception aborts the whole
run, so an error short-circuits), filter the candidates, append. -/
def genStep (cfg : ConfigFilter) (enabled : Bool)
    (gen : List Opt → Except String (List Strategy) × List Opt)
    (acc : Except String (List Strategy) × List Opt) :
    Except String (List Strategy) × List Opt :=
  match acc with
  | (.error e, st) => (.error e, st)
  | (.ok l, st) =>
      if enabled then
        match gen st with
        | (.ok l2, st2) => (.ok (l ++ filter_strategies cfg l2), st2)
        | (.error e, st2) => (.error e, st2)
      else (.ok l, st)

/-- `StrategyFactory::generate`: the four kinds in declared order, threading
the shared universe through. -/
def factoryGenerate (spot : ℚ) (univ : List Opt) (s_filter : StrategyFilter)
    (cfg : ConfigFilter) : Except String (List Strategy) × List Opt :=
  genStep cfg s_filter.strangles (stranglesGenerate spot · cfg)
    (genStep cfg s_filter.straddles (straddlesGenerate spot · cfg)
      (genStep cfg s_filter.iron_condors (ironCondorsGenerate spot · cfg)
        (genStep cfg s_filter.single_calls (singleCallsGenerate spot · cfg)
          (.ok [], univ))))

/-!  `StrategyList` (`factory.hpp`).  `clone_strategy` is the
`dynamic_cast` chain; since the variant set is closed, every strategy hits
one of the four branches and the `nullptr` fallback is unreachable, so the
embedded function is total.  For Straddle/Strangle the C++ rebuilds the
call/put pair by scanning `legs()` into two default-constructed `Option`
locals, overwriting `call` with each call-sided leg and `put` with each
put-sided leg.  -/

/-- A default-constructed C++ `Option` local (strings empty, optionals
empty; numeric members are indeterminate in C++ and are modelled as 0 —
they are only ever observed if a Straddle/Strangle lacks a call- or
put-sided leg). -/
def defaultOpt : Opt :=
  { symbol := "", expiry := "", strike := 0, side := "", mid := 0, iv := 0,
    volume := 0, oi := 0, delta := 0, gamma := 0, theta := 0, vega := 0,
    rho := 0, days_to_expiry := 0, bid := none, ask := none }

/-- The call/put reassembly loop of `clone_strategy`. -/
def findCallPut (legs : List Opt) : Opt × Opt :=
  legs.foldl (fun cp leg =>
    let cp := if leg.is_call then (leg, cp.2) else cp
    if leg.is_put then (cp.1, leg) else cp) (defaultOpt, defaultOpt)

/-- `StrategyList::clone_strategy`. -/
def clone_strategy (s : Strategy) : Strategy :=
  match s with
  | .singleLeg o a d => .singleLeg o (Strategy.leg_sign (.singleLeg o a d) o) d
  | .ironCondor sc bc sp bp d => .ironCondor sc bc sp bp d
  | .straddle c p d =>
      let cp := findCallPut (Strategy.legs (.straddle c p d))
      .straddle cp.1 cp.2 d
  | .strangle c p d =>
      let cp := findCallPut (Strategy.legs (.strangle c p d))
      .strangle cp.1 cp.2 d

/-- `StrategyList::top`: `n = min(n, size)`, then the first `n` elements,
each cloned. -/
def top (n : Nat) (l : List Strategy) : List Strategy :=
  (l.take (min n l.length)).map clone_strategy

/-- The strict comparator `rank` hands to `std::sort` for each key
(`"loss"` ignores `reverse`; an unrecognized key sorts nothing). -/
def rankCmp (key : String) (reverse : Bool) (a b : Strategy) : Bool :=
  if key == "rr" then
    (if reverse then FVal.fgt a.rr b.rr else FVal.flt a.rr b.rr)
  else if key == "gain" then
    (if reverse then FVal.fgt a.max_gain b.max_gain else FVal.flt a.max_gain b.max_gain)
  else if key == "loss" then
    FVal.flt a.max_loss b.max_loss
  else if key == "cost" then
    (if reverse then decide (b.cost < a.cost) else decide (a.cost < b.cost))
  else false

/-- What the C++ standard guarantees about `std::sort(first, last, c)`:
the output is a permutation of the input in which no element strictly
precedes (by `c`) its predecessor.  The order of `c`-equivalent elements
is unspecified, so the sort is embedded as a relation. -/
def sortSpec (c : α → α → Bool) (input output : List α) : Prop :=
  output.Perm input ∧ output.Chain' (fun x y => c y x = false)

/-- `StrategyList::rank`: empty input gives an empty list; otherwise the
current list is cloned and, for a recognized key, `std::sort`ed with that
key's comparator; an unrecognized key returns the clone unsorted. -/
def rankRel (key : String) (reverse : Bool) (l l' : List Strategy) : Prop :=
  if l = [] then l' = []
  else if key = "rr" ∨ key = "gain" ∨ key = "loss" ∨ key = "cost" then
    sortSpec (rankCmp key reverse) (l.map clone_strategy) l'
  else l' = l.map clone_strategy

instance {α : Type} [DecidableEq α] (c : α → α → Bool) (input output : List α) :
    Decidable (sortSpec c input output) :=
  inferInstanceAs (Decidable (output.Perm input ∧ output.Chain' (fun x y => c y x = false)))

instance (key : String) (reverse : Bool) (l l' : List Strategy) :
    Decidable (rankRel key reverse l l') :=
  inferInstanceAs (Decidable (if l = [] then l' = []
    else if key = "rr" ∨ key = "gain" ∨ key = "loss" ∨ key = "cost" then
      sortSpec (rankCmp key reverse) (l.map clone_strategy) l'
    else l' = l.map clone_strategy))

/-- The leg shape every generator produces for the two-leg variants: the
`call` slot holds a CALL, the `put` slot a PUT.  (The other two variants
are unconstrained.)  `clone_strategy`'s side-scan reassembly is only
faithful on this shape. -/
def wellFormed : Strategy → Bool
  | .straddle c p _ => c.side == "CALL" && p.side == "PUT"
  | .strangle c p _ => c.side == "CALL" && p.side == "PUT"
  | _ => true

/-- The conjunction of the seven option-level predicates; `applyFilter`
is proved below to be one `filter` by this conjunction. -/
def optionPasses (cfg : ConfigFilter) (o : Opt) : Bool :=
  optMinVolumeP cfg o && optMinOiP cfg o && optMinPriceP cfg o &&
  optExpiryP cfg o && optDaysP cfg o && optVolumeRatioP cfg o && optSpreadP cfg o

/-!  Concrete inputs used by the falsifying evaluations and the witnesses. -/

/-- An option record with the given expiry, strike, side and mid price;
all other fields neutral. -/
def mkOpt (expiry : String) (strike : ℚ) (side : String) (mid : ℚ) : Opt :=
  { symbol := "OPT", expiry := expiry, strike := strike, side := side, mid := mid,
    iv := 0, volume := 0, oi := 0, delta := 0, gamma := 0, theta := 0, vega := 0,
    rho := 0, days_to_expiry := 30, bid := none, ask := none }

/-- A record that fails a `min_volume := 1` filter. -/
def oVol0 : Opt := mkOpt "2025-01-17" 105 "CALL" 1

def univMut : List Opt := [oVol0]

def cfgMut : ConfigFilter := { min_volume := some 1, direction := some .LONG }

/-- A record with positive volume but zero open interest. -/
def oZeroOI : Opt := { mkOpt "2025-01-17" 105 "CALL" 1 with volume := 5, oi := 0 }

def cfgVolRatio : ConfigFilter := { volume_ratio_range := some (0, 10) }

def sfStraddlesOnly : StrategyFilter := { straddles := true }

def cfgNoDir : ConfigFilter := {}

def cfgLong : ConfigFilter := { direction := some .LONG }

def cfgShort : ConfigFilter := { direction := some .SHORT }

def oC105 : Opt := mkOpt "E" 105 "CALL" 2

def oC110 : Opt := mkOpt "E" 110 "CALL" 1

def oP95 : Opt := mkOpt "E" 95 "PUT" 2

def oP90 : Opt := mkOpt "E" 90 "PUT" 1

def univIC : List Opt := [oC105, oC110, oP95, oP90]

/-- Two distinct SHORT straddles; both have `rr = 0`. -/
def cexA : Strategy := .straddle (mkOpt "E" 100 "CALL" 1) (mkOpt "E" 100 "PUT" 1) "SHORT"

def cexB : Strategy := .straddle (mkOpt "E" 90 "CALL" 1) (mkOpt "E" 90 "PUT" 1) "SHORT"

def wSingle : Strategy := .singleLeg (mkOpt "E" 105 "CALL" 1) "BUY" "LONG"

def wCondor : Strategy := .ironCondor oC105 oC110 oP95 oP90 "SHORT"

/-- A SHORT straddle has zero debit, a LONG one zero credit. -/
def sShortStraddle : Strategy := .straddle (mkOpt "E" 100 "CALL" 1) (mkOpt "E" 100 "PUT" 1) "SHORT"

def sLongStraddle : Strategy := .straddle (mkOpt "E" 100 "CALL" 1) (mkOpt "E" 100 "PUT" 1) "LONG"

def cfgBothRanges : ConfigFilter :=
  { debit_range := some (.fin 1000, .fin 2000), credit_range := some (.fin 1000, .fin 2000) }

/-!  Helper lemmas (shared; not claim theorems). -/

/-- `apply_filter` is extensionally one filter by the conjunction of its
seven predicates. -/
theorem applyFilter_eq_filter (cfg : ConfigFilter) (univ : List Opt) :
    applyFilter cfg univ = univ.filter (optionPasses cfg) := by
  simp only [applyFilter, List.filter_filter]
  refine List.filter_congr ?_
  intro o _
  unfold optionPasses
  cases optMinVolumeP cfg o <;> cases optMinOiP cfg o <;> cases optMinPriceP cfg o <;>
    cases optExpiryP cfg o <;> cases optDaysP cfg o <;> cases optVolumeRatioP cfg o <;>
    cases optSpreadP cfg o <;> rfl

theorem mem_insSorted {le : α → α → Bool} {a b : α} {l : List α} :
    b ∈ insSorted le a l ↔ b = a ∨ b ∈ l := by
  induction l with
  | nil => simp [insSorted]
  | cons c l ih =>
      simp only [insSorted]
      cases h : le a c
      · simp only [Bool.false_eq_true, if_false, List.mem_cons, ih]
        tauto
      · simp [List.mem_cons]

theorem mem_insSort {le : α → α → Bool} {b : α} {l : List α} :
    b ∈ insSort le l ↔ b ∈ l := by
  induction l with
  | nil => simp [insSort]
  | cons c l ih => simp [insSort, mem_insSorted, ih]

/-- `clone_strategy` is the identity on well-formed strategies. -/
theorem clone_strategy_eq_self {s : Strategy} (h : wellFormed s = true) :
    clone_strategy s = s := by
  cases s with
  | singleLeg o a d => simp [clone_strategy, Strategy.leg_sign]
  | ironCondor sc bc sp bp d => rfl
  | straddle c p d =>
      simp only [wellFormed, Bool.and_eq_true, beq_iff_eq] at h
      simp [clone_strategy, findCallPut, Strategy.legs, Opt.is_call, Opt.is_put, h.1, h.2]
  | strangle c p d =>
      simp only [wellFormed, Bool.and_eq_true, beq_iff_eq] at h
      simp [clone_strategy, findCallPut, Strategy.legs, Opt.is_call, Opt.is_put, h.1, h.2]

theorem map_clone_eq_self {l : List Strategy} (h : ∀ s ∈ l, wellFormed s = true) :
    l.map clone_strategy = l := by
  rw [List.map_congr_left (fun s hs => clone_strategy_eq_self (h s hs))]
  simp

/-- C4: a value is accepted by a present range exactly when
`low ≤ value ≤ high` under IEEE comparison (both ends inclusive); NaN is
always rejected; an infinite value passes only when the corresponding
bound is itself that infinity; in particular for `rr_range = (2, 5)` a
value of 1.99 is rejected, 2 is accepted, and +∞ is rejected (it would
need `high = +∞`). -/
theorem check_range_semantics :
    (∀ v lo hi, check_range v (some (lo, hi)) = (FVal.fle lo v && FVal.fle v hi)) ∧
    (∀ lo hi, check_range .nan (some (lo, hi)) = false) ∧
    (∀ lo hi, check_range .pinf (some (lo, hi)) = (!lo.isNan && decide (hi = .pinf))) ∧
    (∀ lo hi, check_range .ninf (some (lo, hi)) = (decide (lo = .ninf) && !hi.isNan)) ∧
    (check_range (.fin (199/100)) (some (.fin 2, .fin 5)) = false ∧
     check_range (.fin 2) (some (.fin 2, .fin 5)) = true ∧
     check_range .pinf (some (.fin 2, .fin 5)) = false ∧
     check_range .pinf (some (.fin 2, .pinf)) = true) := by
  refine ⟨?_, ?_, ?_, ?_,
    by simp [check_range, FVal.isNan, FVal.fge, FVal.fle]; norm_num,
    by simp [check_range, FVal.isNan, FVal.fge, FVal.fle]; norm_num, by decide, by decide⟩
  · intro v lo hi
    cases v <;> cases lo <;> cases hi <;> rfl
  · intro lo hi; rfl
  · intro lo hi
    cases lo <;> cases hi <;> rfl
  · intro lo hi
    cases lo <;> cases hi <;> rfl

/-- C5: a zero-debit strategy is never rejected by a configured
`debit_range` (the check only fires when debit > 0): filtering behaves
exactly as if `debit_range` were absent; symmetrically for zero credit
and `credit_range`. -/
theorem zero_debit_credit_exempt :
    (∀ (cfg : ConfigFilter) (s : Strategy), s.debit = 0 →
        strategyPasses cfg s = strategyPasses { cfg with debit_range := none } s) ∧
    (∀ (cfg : ConfigFilter) (s : Strategy), s.credit = 0 →
        strategyPasses cfg s = strategyPasses { cfg with credit_range := none } s) := by
  constructor
  · intro cfg s h
    simp [strategyPasses, h]
  · intro cfg s h
    simp [strategyPasses, h]

/-- C7: a record with zero open interest has an undefined volume ratio, so
whenever `volume_ratio_range` is present the option filter drops it,
whatever its volume. -/
theorem zero_oi_excluded (univ : List Opt) (cfg : ConfigFilter) (o : Opt)
    (hoi : o.oi = 0) (hvr : cfg.volume_ratio_range.isSome = true) :
    o ∉ applyFilter cfg univ := by
  rw [applyFilter_eq_filter]
  intro hmem
  have hp := (List.mem_filter.mp hmem).2
  unfold optionPasses at hp
  simp only [Bool.and_eq_true] at hp
  have hvrp := hp.1.2
  rcases hr : cfg.volume_ratio_range with _ | r
  · rw [hr] at hvr; simp at hvr
  · rw [optVolumeRatioP, hr] at hvrp
    rw [Opt.volume_ratio, hoi] at hvrp
    simp at hvrp

theorem price_nonneg (o : Opt) : 0 ≤ o.price := by
  unfold Opt.price
  split
  · linarith
  · exact le_refl 0

theorem total_price_nonneg (c p : Opt) : 0 ≤ (c.price + p.price) * 100 := by
  have h1 := price_nonneg c
  have h2 := price_nonneg p
  nlinarith

theorem rr_straddle_long (c p : Opt) : Strategy.rr (.straddle c p "LONG") = .pinf := by
  have h0 := total_price_nonneg c p
  simp only [Strategy.rr, Strategy.max_loss, Strategy.max_gain, Strategy.cost,
    Strategy.debit, Strategy.credit]
  norm_num
  rcases eq_or_lt_of_le h0 with heq | hlt
  · simp [FVal.fgt, FVal.flt, ← heq]
  · simp [FVal.fgt, FVal.flt, hlt, FVal.fdiv, not_lt_of_gt hlt]

theorem rr_strangle_long (c p : Opt) : Strategy.rr (.strangle c p "LONG") = .pinf := by
  have h0 := total_price_nonneg c p
  simp only [Strategy.rr, Strategy.max_loss, Strategy.max_gain, Strategy.cost,
    Strategy.debit, Strategy.credit]
  norm_num
  rcases eq_or_lt_of_le h0 with heq | hlt
  · simp [FVal.fgt, FVal.flt, ← heq]
  · simp [FVal.fgt, FVal.flt, hlt, FVal.fdiv, not_lt_of_gt hlt]

/-- C10: a Straddle's or Strangle's risk/reward takes exactly two values,
fixed by direction: +∞ for LONG (max_gain is +∞; when the cost is 0 the
`max_loss > 0` guard also yields +∞) and 0 for SHORT (finite credit over
infinite max_loss); hence any `rr_range` with a finite high bound rejects
every LONG one and any `rr_range` with positive low bound rejects every
SHORT one. -/
theorem straddle_strangle_rr :
    (∀ c p : Opt, Strategy.rr (.straddle c p "LONG") = .pinf) ∧
    (∀ c p : Opt, Strategy.rr (.straddle c p "SHORT") = .fin 0) ∧
    (∀ c p : Opt, Strategy.rr (.strangle c p "LONG") = .pinf) ∧
    (∀ c p : Opt, Strategy.rr (.strangle c p "SHORT") = .fin 0) ∧
    (∀ (c p : Opt) (lo : FVal) (hi : ℚ),
        check_range (Strategy.rr (.straddle c p "LONG")) (some (lo, .fin hi)) = false) ∧
    (∀ (c p : Opt) (lo : ℚ) (hi : FVal), 0 < lo →
        check_range (Strategy.rr (.straddle c p "SHORT")) (some (.fin lo, hi)) = false) ∧
    (∀ (c p : Opt) (lo : FVal) (hi : ℚ),
        check_range (Strategy.rr (.strangle c p "LONG")) (some (lo, .fin hi)) = false) ∧
    (∀ (c p : Opt) (lo : ℚ) (hi : FVal), 0 < lo →
        check_range (Strategy.rr (.strangle c p "SHORT")) (some (.fin lo, hi)) = false) := by
  refine ⟨rr_straddle_long, fun c p => rfl, rr_strangle_long, fun c p => rfl,
    ?_, ?_, ?_, ?_⟩
  · intro c p lo hi
    simp [rr_straddle_long, check_range, FVal.isNan, FVal.fle]
  · intro c p lo hi h
    have : Strategy.rr (.straddle c p "SHORT") = .fin 0 := rfl
    simp [this, check_range, FVal.isNan, FVal.fge, FVal.fle, not_le_of_gt h]
  · intro c p lo hi
    simp [rr_strangle_long, check_range, FVal.isNan, FVal.fle]
  · intro c p lo hi h
    have : Strategy.rr (.strangle c p "SHORT") = .fin 0 := rfl
    simp [this, check_range, FVal.isNan, FVal.fge, FVal.fle, not_le_of_gt h]

/-- C10 witness: the rejection claims instantiated at a concrete straddle
and strangle with `rr_range = (1, 10)`. -/
theorem straddle_strangle_rr_witness :
    check_range (Strategy.rr (.straddle (mkOpt "E" 100 "CALL" 1) (mkOpt "E" 100 "PUT" 1) "LONG"))
      (some (.fin 1, .fin 10)) = false ∧
    check_range (Strategy.rr (.straddle (mkOpt "E" 100 "CALL" 1) (mkOpt "E" 100 "PUT" 1) "SHORT"))
      (some (.fin 1, .fin 10)) = false ∧
    check_range (Strategy.rr (.strangle (mkOpt "E" 105 "CALL" 1) (mkOpt "E" 95 "PUT" 1) "SHORT"))
      (some (.fin 1, .fin 10)) = false :=
  ⟨straddle_strangle_rr.2.2.2.2.1 _ _ (.fin 1) 10,
   straddle_strangle_rr.2.2.2.2.2.1 _ _ 1 (.fin 10) (by norm_num),
   straddle_strangle_rr.2.2.2.2.2.2.2 _ _ 1 (.fin 10) (by norm_num)⟩

/-- C8: option-level filtering is idempotent — filtering an
already-filtered universe with the same `ConfigFilter` returns it
unchanged. -/
theorem applyFilter_idempotent (cfg : ConfigFilter) (univ : List Opt) :
    applyFilter cfg (applyFilter cfg univ) = applyFilter cfg univ := by
  rw [applyFilter_eq_filter, applyFilter_eq_filter, List.filter_filter]
  refine List.filter_congr ?_
  intro o _
  cases optionPasses cfg o <;> rfl

/-- C5 witness: with both ranges configured as (1000, 2000), a zero-debit
SHORT straddle is filtered exactly as if no debit range were set, and a
zero-credit LONG straddle exactly as if no credit range were set. -/
theorem zero_debit_credit_exempt_witness :
    strategyPasses cfgBothRanges sShortStraddle =
      strategyPasses { cfgBothRanges with debit_range := none } sShortStraddle ∧
    strategyPasses cfgBothRanges sLongStraddle =
      strategyPasses { cfgBothRanges with credit_range := none } sLongStraddle :=
  ⟨zero_debit_credit_exempt.1 cfgBothRanges sShortStraddle rfl,
   zero_debit_credit_exempt.2 cfgBothRanges sLongStraddle rfl⟩

/-- C7 witness: a record with volume 5 but zero open interest is dropped
by a configured volume-ratio range. -/
theorem zero_oi_excluded_witness :
    oZeroOI ∉ applyFilter cfgVolRatio [oZeroOI] :=
  zero_oi_excluded [oZeroOI] cfgVolRatio oZeroOI rfl rfl

/-- C1 (the code falsifies the claim): `apply_filter` reassigns the
universe it was handed by reference, so after `SingleCallsGenerator`
runs on a universe whose only record fails `min_volume = 1`, the caller's
collection is left empty rather than unchanged. -/
theorem option_filter_mutates_universe :
    (singleCallsGenerate 100 univMut cfgMut).2 = [] ∧ univMut ≠ [] := by
  decide

theorem singleCalls_dir_none (spot : ℚ) (univ : List Opt) {cfg : ConfigFilter}
    (h : cfg.direction = none) :
    singleCallsGenerate spot univ cfg = (.error "bad_optional_access", applyFilter cfg univ) := by
  simp [singleCallsGenerate, h]

theorem ironCondors_dir_none (spot : ℚ) (univ : List Opt) {cfg : ConfigFilter}
    (h : cfg.direction = none) :
    ironCondorsGenerate spot univ cfg = (.error "bad_optional_access", applyFilter cfg univ) := by
  simp [ironCondorsGenerate, h]

theorem straddles_dir_none (spot : ℚ) (univ : List Opt) {cfg : ConfigFilter}
    (h : cfg.direction = none) :
    straddlesGenerate spot univ cfg = (.error "bad_optional_access", applyFilter cfg univ) := by
  simp [straddlesGenerate, h]

theorem strangles_dir_none (spot : ℚ) (univ : List Opt) {cfg : ConfigFilter}
    (h : cfg.direction = none) :
    stranglesGenerate spot univ cfg = (.error "bad_optional_access", applyFilter cfg univ) := by
  simp [stranglesGenerate, h]

/-- C3: if any strategy kind is enabled while `direction` is absent, the
factory run aborts with the `bad_optional_access` precondition failure and
yields no strategy list at all; with `direction` present, no generator
raises that failure and a result list is produced. -/
theorem direction_precondition :
    (∀ (spot : ℚ) (univ : List Opt) (sf : StrategyFilter) (cfg : ConfigFilter),
        (sf.single_calls = true ∨ sf.iron_condors = true ∨
         sf.straddles = true ∨ sf.strangles = true) →
        cfg.direction = none →
        (factoryGenerate spot univ sf cfg).1 = .error "bad_optional_access") ∧
    (∀ (spot : ℚ) (univ : List Opt) (sf : StrategyFilter) (cfg : ConfigFilter)
        (d : Direction), cfg.direction = some d →
        ∃ l, (factoryGenerate spot univ sf cfg).1 = .ok l) := by
  constructor
  · intro spot univ sf cfg hen hdir
    rcases sf with ⟨b1, b2, b3, b4⟩
    simp only at hen
    cases b1 <;> cases b2 <;> cases b3 <;> cases b4 <;>
      simp_all [factoryGenerate, genStep, singleCalls_dir_none spot _ hdir,
        ironCondors_dir_none spot _ hdir, straddles_dir_none spot _ hdir,
        strangles_dir_none spot _ hdir]
  · intro spot univ sf cfg d hdir
    rcases sf with ⟨b1, b2, b3, b4⟩
    cases b1 <;> cases b2 <;> cases b3 <;> cases b4 <;>
      simp [factoryGenerate, genStep, singleCallsGenerate, ironCondorsGenerate,
        straddlesGenerate, stranglesGenerate, hdir]

/-- C3 witness: with only straddles enabled, an absent direction aborts
the run with the precondition failure; a present direction yields a
result list. -/
theorem direction_precondition_witness :
    (factoryGenerate 100 [] sfStraddlesOnly cfgNoDir).1 = .error "bad_optional_access" ∧
    ∃ l, (factoryGenerate 100 [] sfStraddlesOnly cfgLong).1 = .ok l :=
  ⟨direction_precondition.1 100 [] sfStraddlesOnly cfgNoDir (Or.inr (Or.inr (Or.inl rfl))) rfl,
   direction_precondition.2 100 [] sfStraddlesOnly cfgLong .LONG rfl⟩

/-- C2 counterexample: `rank` sorts with `std::sort`, whose postcondition
does not fix the order of comparator-equal elements.  Two distinct SHORT
straddles have equal `rr`, and the swapped output is a legitimate result
of `rank("rr", true)` — so equal-key elements need not keep their input
order, refuting the stability part of the claim. -/
theorem rank_stability_counterexample :
    rankRel "rr" true [cexA, cexB] [cexB, cexA] ∧
    Strategy.rr cexA = Strategy.rr cexB ∧ cexA ≠ cexB := by
  refine ⟨?_, rfl, by decide⟩
  unfold rankRel
  rw [if_neg (by decide), if_pos (Or.inl rfl)]
  have hm : [cexA, cexB].map clone_strategy = [cexA, cexB] := by decide
  refine ⟨?_, ?_⟩
  · rw [hm]
    exact List.Perm.swap cexA cexB []
  · exact List.chain'_cons.mpr ⟨by decide, List.chain'_singleton _⟩

/-- C2 (amended): for every recognized key, any result of
`rank(key, reverse)` on a generator-shaped list is a permutation of the
input that is ordered by that key's comparator; the relative order of
equal-key elements is unspecified (`std::sort` is not stable). -/
theorem rank_sorted_permutation (key : String) (reverse : Bool) (l l' : List Strategy)
    (hk : key = "rr" ∨ key = "gain" ∨ key = "loss" ∨ key = "cost")
    (hwf : ∀ s ∈ l, wellFormed s = true)
    (h : rankRel key reverse l l') :
    l'.Perm l ∧ l'.Chain' (fun a b => rankCmp key reverse b a = false) := by
  unfold rankRel at h
  by_cases hl : l = []
  · rw [if_pos hl] at h
    subst hl; subst h
    exact ⟨.refl _, List.chain'_nil⟩
  · rw [if_neg hl, if_pos hk] at h
    rw [sortSpec, map_clone_eq_self hwf] at h
    exact h

/-- C2 witness: a singleton list is its own valid ranking by "cost". -/
theorem rank_sorted_permutation_witness :
    List.Perm [wSingle] [wSingle] ∧
    List.Chain' (fun a b => rankCmp "cost" true b a = false) [wSingle] :=
  rank_sorted_permutation "cost" true [wSingle] [wSingle]
    (Or.inr (Or.inr (Or.inr rfl))) (by decide)
    (by unfold rankRel
        rw [if_neg (by decide), if_pos (Or.inr (Or.inr (Or.inr rfl)))]
        have hm : [wSingle].map clone_strategy = [wSingle] := by decide
        exact ⟨by rw [hm], List.chain'_singleton _⟩)

/-- C9: `clone_strategy` reproduces every generator-shaped strategy
exactly (the `dynamic_cast` chain covers all four kinds, so the null
fallback is unreachable and every metric agrees because the clone *is*
the original); consequently `top` returns the first `min(n, size)`
elements unchanged and any `rank` output is a permutation of the
original list, whose own order both operations leave untouched. -/
theorem clone_rank_top_faithful :
    (∀ s : Strategy, wellFormed s = true → clone_strategy s = s) ∧
    (∀ (n : Nat) (l : List Strategy), (∀ s ∈ l, wellFormed s = true) →
        top n l = l.take (min n l.length)) ∧
    (∀ (key : String) (reverse : Bool) (l l' : List Strategy),
        (∀ s ∈ l, wellFormed s = true) → rankRel key reverse l l' → l'.Perm l) := by
  refine ⟨fun s h => clone_strategy_eq_self h, ?_, ?_⟩
  · intro n l h
    unfold top
    rw [map_clone_eq_self (fun s hs => h s (List.mem_of_mem_take hs))]
  · intro key reverse l l' hwf h
    unfold rankRel at h
    by_cases hl : l = []
    · rw [if_pos hl] at h
      subst hl; subst h
      exact .refl _
    · rw [if_neg hl] at h
      by_cases hk : key = "rr" ∨ key = "gain" ∨ key = "loss" ∨ key = "cost"
      · rw [if_pos hk, sortSpec, map_clone_eq_self hwf] at h
        exact h.1
      · rw [if_neg hk, map_clone_eq_self hwf] at h
        subst h
        exact .refl _

/-- C6: every strategy the iron-condor generator emits is an IronCondor
whose long call sits strictly above its short call, whose long put sits
strictly below its short put, whose short strikes straddle spot
(short_call.strike > spot > short_put.strike), and whose four legs all
come from the same expiry chain. -/
theorem iron_condor_geometry (spot : ℚ) (univ : List Opt) (cfg : ConfigFilter)
    (l : List Strategy) (hok : (ironCondorsGenerate spot univ cfg).1 = .ok l)
    (s : Strategy) (hs : s ∈ l) :
    ∃ sc bc sp bp d, s = .ironCondor sc bc sp bp d ∧
      sc.strike < bc.strike ∧ bp.strike < sp.strike ∧
      spot < sc.strike ∧ sp.strike < spot ∧
      bc.expiry = sc.expiry ∧ sp.expiry = sc.expiry ∧ bp.expiry = sc.expiry := by
  unfold ironCondorsGenerate at hok
  rcases hdir : cfg.direction with _ | d
  · rw [hdir] at hok
    simp at hok
  · rw [hdir] at hok
    simp only [Except.ok.injEq] at hok
    subst hok
    obtain ⟨e, -, hs⟩ := List.mem_flatMap.mp hs
    obtain ⟨sc, hsc, hs⟩ := List.mem_flatMap.mp hs
    obtain ⟨bc, hbc, hs⟩ := List.mem_flatMap.mp hs
    obtain ⟨sp, hsp, hs⟩ := List.mem_flatMap.mp hs
    obtain ⟨bp, hbp, hseq⟩ := List.mem_map.mp hs
    simp only [List.mem_filter, sortByStrike, mem_insSort, expiryChain,
      Bool.and_eq_true, decide_eq_true_eq, beq_iff_eq] at hsc hbc hsp hbp
    exact ⟨sc, bc, sp, bp, direction_to_string d, hseq.symm,
      hbc.2, hbp.2, hsc.2, hsp.2,
      hbc.1.1.2.trans hsc.1.1.2.symm,
      hsp.1.1.2.trans hsc.1.1.2.symm,
      hbp.1.1.2.trans hsc.1.1.2.symm⟩

/-- C6 witness: on a chain with calls at 105/110 and puts at 95/90 around
spot 100, the generated condor satisfies the geometry. -/
theorem iron_condor_geometry_witness :
    ∃ sc bc sp bp d,
      Strategy.ironCondor oC105 oC110 oP95 oP90 "SHORT" = .ironCondor sc bc sp bp d ∧
      sc.strike < bc.strike ∧ bp.strike < sp.strike ∧
      (100 : ℚ) < sc.strike ∧ sp.strike < 100 ∧
      bc.expiry = sc.expiry ∧ sp.expiry = sc.expiry ∧ bp.expiry = sc.expiry :=
  iron_condor_geometry 100 univIC cfgShort _ rfl _ (by decide)

/-- C9 witness: cloning an iron condor gives it back, and `top 3` of a
singleton list is that list. -/
theorem clone_rank_top_faithful_witness :
    clone_strategy wCondor = wCondor ∧ top 3 [wCondor] = [wCondor] := by
  refine ⟨clone_rank_top_faithful.1 wCondor rfl, ?_⟩
  have h := clone_rank_top_faithful.2.1 3 [wCondor] (by decide)
  simpa using h



